import Mathlib

/-!
Verification of the evaluation core of the `lox-base` tree-walking
interpreter (files `lox/runtime.py`, `lox/ast.py`, `lox/transformer.py`).

Shallow embedding notes:
* Python 64-bit floats are modelled by `LoxNum`: NaN, signed infinities and
  finite values.  Finite values are represented as exact integer fractions
  (`Frac`); IEEE rounding and overflow are not modelled.  The properties
  verified here touch only NaN/infinity behaviour, comparisons with zero and
  exact small-integer arithmetic, where the fraction model agrees with the
  source.
* Python object references (LoxFunction, LoxInstance) are modelled as indices
  into heaps carried in an explicit interpreter state; Python exceptions are
  modelled as an `Outcome` sum threaded together with the state, so state
  mutations performed before an exception persist, as in the source.
* `LoxClass` values are immutable after creation in the source, so they are
  embedded structurally (the `base` link copies the superclass value).
-/

namespace LoxSpec

/-- Exact fraction `num / den` with `den ≠ 0` maintained by all constructors
used in this development; stands for a finite Python float. -/
structure Frac where
  num : Int
  den : Nat
deriving DecidableEq, Repr

def Frac.isZero (a : Frac) : Bool := a.num == 0

def Frac.isPos (a : Frac) : Bool := 0 < a.num

def Frac.isNeg (a : Frac) : Bool := a.num < 0

def Frac.feq (a b : Frac) : Bool := a.num * (b.den : Int) == b.num * (a.den : Int)

def Frac.flt (a b : Frac) : Bool := a.num * (b.den : Int) < b.num * (a.den : Int)

def Frac.fadd (a b : Frac) : Frac :=
  ⟨a.num * (b.den : Int) + b.num * (a.den : Int), a.den * b.den⟩

def Frac.fsub (a b : Frac) : Frac :=
  ⟨a.num * (b.den : Int) - b.num * (a.den : Int), a.den * b.den⟩

def Frac.fmul (a b : Frac) : Frac := ⟨a.num * b.num, a.den * b.den⟩

/-- Exact division, only used with `b` nonzero (the source guards `b == 0`). -/
def Frac.fdiv (a b : Frac) : Frac :=
  if b.num < 0 then ⟨-(a.num * (b.den : Int)), a.den * b.num.natAbs⟩
  else ⟨a.num * (b.den : Int), a.den * b.num.natAbs⟩

/-- A Python float value: NaN, a signed infinity, or a finite value. -/
inductive LoxNum where
  | nan
  | inf (pos : Bool)
  | fin (f : Frac)
deriving DecidableEq, Repr

def LoxNum.isNan : LoxNum → Bool
  | .nan => true
  | _ => false

/-- Python `x == 0` on a float. -/
def LoxNum.eqZero : LoxNum → Bool
  | .fin f => f.isZero
  | _ => false

/-- Python `x > 0` on a float (false for NaN). -/
def LoxNum.gtZero : LoxNum → Bool
  | .nan => false
  | .inf s => s
  | .fin f => f.isPos

/-- Python `x < 0` on a float (false for NaN). -/
def LoxNum.ltZero : LoxNum → Bool
  | .nan => false
  | .inf s => !s
  | .fin f => f.isNeg

/-- Python `==` on two floats: NaN equals nothing, infinities by sign,
finite values by numeric value. -/
def LoxNum.numEq : LoxNum → LoxNum → Bool
  | .nan, _ => false
  | _, .nan => false
  | .inf s, .inf t => s == t
  | .fin a, .fin b => a.feq b
  | _, _ => false

/-- Python `<` on two floats (false whenever NaN is involved). -/
def LoxNum.numLt : LoxNum → LoxNum → Bool
  | .nan, _ => false
  | _, .nan => false
  | .inf true, _ => false
  | .inf false, .inf false => false
  | .inf false, _ => true
  | .fin _, .inf true => true
  | .fin _, .inf false => false
  | .fin a, .fin b => a.flt b

/-- Python `<=` on two floats (false whenever NaN is involved). -/
def LoxNum.numLe (a b : LoxNum) : Bool :=
  match a, b with
  | .nan, _ => false
  | _, .nan => false
  | _, _ => a.numLt b || a.numEq b

/-- Python `+` on two floats. -/
def LoxNum.numAdd : LoxNum → LoxNum → LoxNum
  | .nan, _ => .nan
  | _, .nan => .nan
  | .inf s, .inf t => if s == t then .inf s else .nan
  | .inf s, .fin _ => .inf s
  | .fin _, .inf t => .inf t
  | .fin a, .fin b => .fin (a.fadd b)

/-- Python `-` on two floats. -/
def LoxNum.numSub : LoxNum → LoxNum → LoxNum
  | .nan, _ => .nan
  | _, .nan => .nan
  | .inf s, .inf t => if s == t then .nan else .inf s
  | .inf s, .fin _ => .inf s
  | .fin _, .inf t => .inf !t
  | .fin a, .fin b => .fin (a.fsub b)

def LoxNum.sign : LoxNum → Bool
  | .nan => true
  | .inf s => s
  | .fin f => !f.isNeg

/-- Python `*` on two floats. -/
def LoxNum.numMul : LoxNum → LoxNum → LoxNum
  | .nan, _ => .nan
  | _, .nan => .nan
  | .inf s, .inf t => .inf (s == t)
  | .inf s, .fin b => if b.isZero then .nan else .inf (s == !b.isNeg)
  | .fin a, .inf t => if a.isZero then .nan else .inf (t == !a.isNeg)
  | .fin a, .fin b => .fin (a.fmul b)

/-- Python `/` on two floats, for a nonzero divisor (the source's
`truediv` handles a zero divisor before reaching `a / b`). -/
def LoxNum.numDivNZ : LoxNum → LoxNum → LoxNum
  | .nan, _ => .nan
  | _, .nan => .nan
  | .inf _, .inf _ => .nan
  | .inf s, .fin b => .inf (s == !b.isNeg)
  | .fin _, .inf _ => .fin ⟨0, 1⟩
  | .fin a, .fin b => .fin (a.fdiv b)

/-- Unary float negation. -/
def LoxNum.numNeg : LoxNum → LoxNum
  | .nan => .nan
  | .inf s => .inf !s
  | .fin a => .fin ⟨-a.num, a.den⟩

/-- Runtime class value (`LoxClass` in `runtime.py`): a name, a method table
mapping method names to closure ids, and an optional base class.  The
dataclass `base: "LoxClass" = None` field is embedded as two constructors to
keep the type non-nested. -/
inductive LoxClass where
  | base (name : String) (methods : List (String × Nat))
  | derived (name : String) (methods : List (String × Nat)) (sup : LoxClass)
deriving Repr

def LoxClass.cname : LoxClass → String
  | .base n _ => n
  | .derived n _ _ => n

def LoxClass.cmethods : LoxClass → List (String × Nat)
  | .base _ ms => ms
  | .derived _ ms _ => ms

def LoxClass.cbase : LoxClass → Option LoxClass
  | .base _ _ => none
  | .derived _ _ s => some s

/-- First binding of `k` in an association list (Python dict lookup; the
interpreter keeps keys unique via `updateAssoc`). -/
def lookupA {α : Type} : List (String × α) → String → Option α
  | [], _ => none
  | (k, v) :: rest, key => if k == key then some v else lookupA rest key

/-- Python `dict[k] = v`: replace the binding if the key exists, else append. -/
def updateAssoc {α : Type} : List (String × α) → String → α → List (String × α)
  | [], key, v => [(key, v)]
  | (k, w) :: rest, key, v =>
    if k == key then (k, v) :: rest else (k, w) :: updateAssoc rest key v

/-- `LoxClass.get_method`: search the class's own table, then the bases,
recursively; `none` stands for the `LoxError "Undefined property ..."` the
source raises when the chain is exhausted. -/
def LoxClass.getMethod : LoxClass → String → Option Nat
  | .base _ ms, name => lookupA ms name
  | .derived _ ms s, name =>
    match lookupA ms name with
    | some fid => some fid
    | none => s.getMethod name

/-- Python dict equality on method tables: same keys, equal values per key
(`LoxFunction.__eq__` is identity, embedded as closure-id equality). -/
def dictEq (ms₁ ms₂ : List (String × Nat)) : Bool :=
  ms₁.all (fun p => lookupA ms₂ p.1 == lookupA ms₁ p.1) &&
  ms₂.all (fun p => lookupA ms₁ p.1 == lookupA ms₂ p.1)

/-- Python `==` on two `LoxClass` dataclass values: structural on
name, method table and base. -/
def LoxClass.classEq : LoxClass → LoxClass → Bool
  | .base n₁ ms₁, .base n₂ ms₂ => n₁ == n₂ && dictEq ms₁ ms₂
  | .derived n₁ ms₁ s₁, .derived n₂ ms₂ s₂ =>
    n₁ == n₂ && dictEq ms₁ ms₂ && s₁.classEq s₂
  | _, _ => false

/-- A Lox runtime value: the source's `Value = bool | str | float | None`
union extended with the runtime objects.  Closures and instances are heap
references; `pyInit` is the host-level bound method `LoxInstance.init`, the
value Python's attribute lookup produces for the name `init` before the
`__getattr__` fallback runs. -/
inductive Value where
  | nil
  | bool (b : Bool)
  | num (n : LoxNum)
  | str (s : String)
  | fn (fid : Nat)
  | klass (c : LoxClass)
  | inst (iid : Nat)
  | pyInit (iid : Nat)
deriving Repr

/-- Python runtime type tag, used by `eq`'s `type(a) is not type(b)` guard. -/
def Value.kind : Value → Nat
  | .nil => 0
  | .bool _ => 1
  | .num _ => 2
  | .str _ => 3
  | .fn _ => 4
  | .klass _ => 5
  | .inst _ => 6
  | .pyInit _ => 7

/-- `runtime.truthy`: only `nil` and `false` are falsy. -/
def truthy : Value → Bool
  | .nil => false
  | .bool false => false
  | _ => true

/-- An instance's attribute dictionary (`LoxInstance.__dict__`): the
dataclass field `klass` is its first entry, set at construction. -/
structure LoxInstance where
  fields : List (String × Value)
deriving Repr

def initFields (c : LoxClass) : List (String × Value) := [("klass", .klass c)]

/-- The (possibly overwritten) `klass` attribute of instance `iid`. -/
def klassAttr (insts : List LoxInstance) (iid : Nat) : Value :=
  match insts[iid]? with
  | some d =>
    match lookupA d.fields "klass" with
    | some v => v
    | none => .nil
  | none => .nil

/-- Host `==` (Python rich comparison), used inside `eq` after its guards and
by the `LoxInstance` dataclass `__eq__` on the `klass` attributes.  Python
`bool` is an `int`, so `True == 1.0` holds.  The fuel bounds the recursion
through instance `klass` attributes (Python's recursion limit); every use in
this development needs depth at most 2. -/
def pyEq : Nat → List LoxInstance → Value → Value → Option Bool
  | _, _, .nil, .nil => some true
  | _, _, .bool a, .bool b => some (a == b)
  | _, _, .bool a, .num n => some (LoxNum.numEq (.fin ⟨if a then 1 else 0, 1⟩) n)
  | _, _, .num n, .bool b => some (LoxNum.numEq n (.fin ⟨if b then 1 else 0, 1⟩))
  | _, _, .num a, .num b => some (a.numEq b)
  | _, _, .str a, .str b => some (a == b)
  | _, _, .fn i, .fn j => some (i == j)
  | _, _, .klass c, .klass d => some (c.classEq d)
  | fuel + 1, insts, .inst i, .inst j =>
    -- dataclass `__eq__`: compare the single declared field `klass`
    pyEq fuel insts (klassAttr insts i) (klassAttr insts j)
  | 0, _, .inst _, .inst _ => none
  | fuel + 1, insts, .pyInit i, .pyInit j =>
    -- bound methods compare their `__self__` instances with `==`
    pyEq fuel insts (klassAttr insts i) (klassAttr insts j)
  | 0, _, .pyInit _, .pyInit _ => none
  | _, _, _, _ => some false

/-- Stand-in for `sys.setrecursionlimit`: depth budget of the host `==`. -/
def pyEqFuel : Nat := 1000

/-- `runtime.eq`, the Lox `==`: different runtime types are never equal;
NaN is never equal to anything; otherwise the host `==` decides.  `none`
models the host blowing its recursion limit (never reached by the claims). -/
def eq (insts : List LoxInstance) (a b : Value) : Option Bool :=
  if a.kind != b.kind then some false
  else
    match a, b with
    | .num x, .num y => some (if x.isNan || y.isNan then false else x.numEq y)
    | _, _ => pyEq pyEqFuel insts a b

/-- `runtime.ne`: negation of `eq`. -/
def ne (insts : List LoxInstance) (a b : Value) : Option Bool :=
  (eq insts a b).map (!·)

/-- Runtime signals.  `loxError` is the source's `LoxError`; the others are
host exceptions the source raises or lets escape (`TypeError`, `NameError`,
`AttributeError`, `KeyError`, `RuntimeError`, `RecursionError`). -/
inductive RtErr where
  | loxError (msg : String)
  | typeError (msg : String)
  | nameError (msg : String)
  | attrError (msg : String)
  | keyError (name : String)
  | runtimeError (msg : String)
  | recursionError
deriving Repr

/-- `runtime.not_`: Lox `!`. -/
def not_ (v : Value) : Value := .bool (!truthy v)

/-- `runtime.neg`: Lox unary `-`, numbers only. -/
def neg : Value → Except RtErr Value
  | .num n => .ok (.num n.numNeg)
  | _ => .error (.loxError "Operand must be a number.")

/-- `runtime._check_numbers` on two operands. -/
def checkNumbers (a b : Value) : Except RtErr Unit :=
  match a with
  | .num _ =>
    match b with
    | .num _ => .ok ()
    | _ => .error (.loxError "Operands must be numbers.")
  | _ => .error (.loxError "Operands must be numbers.")

/-- `runtime.add`: number+number and string+string only. -/
def add : Value → Value → Except RtErr Value
  | .num a, .num b => .ok (.num (a.numAdd b))
  | .str a, .str b => .ok (.str (a ++ b))
  | _, _ => .error (.loxError "Operands must be two numbers or two strings.")

/-- `runtime.sub`. -/
def sub (a b : Value) : Except RtErr Value := do
  checkNumbers a b
  match a, b with
  | .num x, .num y => return .num (x.numSub y)
  | _, _ => .error (.loxError "Operands must be numbers.")

/-- `runtime.mul`. -/
def mul (a b : Value) : Except RtErr Value := do
  checkNumbers a b
  match a, b with
  | .num x, .num y => return .num (x.numMul y)
  | _, _ => .error (.loxError "Operands must be numbers.")

/-- `runtime.truediv`: after the number check, a zero divisor is handled
symbolically (`0/0` is NaN, otherwise a signed infinity chosen by `a > 0`),
and only a nonzero divisor reaches the host division. -/
def truediv (a b : Value) : Except RtErr Value := do
  checkNumbers a b
  match a, b with
  | .num x, .num y =>
    if y.eqZero then
      if x.eqZero then return .num .nan
      else return .num (if x.gtZero then .inf true else .inf false)
    else return .num (x.numDivNZ y)
  | _, _ => .error (.loxError "Operands must be numbers.")

/-- `runtime.lt`. -/
def lt (a b : Value) : Except RtErr Value := do
  checkNumbers a b
  match a, b with
  | .num x, .num y => return .bool (x.numLt y)
  | _, _ => .error (.loxError "Operands must be numbers.")

/-- `runtime.le`. -/
def le (a b : Value) : Except RtErr Value := do
  checkNumbers a b
  match a, b with
  | .num x, .num y => return .bool (x.numLe y)
  | _, _ => .error (.loxError "Operands must be numbers.")

/-- `runtime.gt`. -/
def gt (a b : Value) : Except RtErr Value := do
  checkNumbers a b
  match a, b with
  | .num x, .num y => return .bool (y.numLt x)
  | _, _ => .error (.loxError "Operands must be numbers.")

/-- `runtime.ge`. -/
def ge (a b : Value) : Except RtErr Value := do
  checkNumbers a b
  match a, b with
  | .num x, .num y => return .bool (y.numLe x)
  | _, _ => .error (.loxError "Operands must be numbers.")

/-- The binary operators the transformer wires into `BinOp` nodes. -/
inductive BinK where
  | addK | subK | mulK | divK | eqK | neK | ltK | leK | gtK | geK
deriving DecidableEq, Repr

/-- The unary operators the transformer wires into `UnaryOp` nodes. -/
inductive UnK where
  | negK | notK
deriving DecidableEq, Repr

/-- Dispatch of `BinOp.eval`'s stored operator. -/
def applyBin (k : BinK) (insts : List LoxInstance) (a b : Value) :
    Except RtErr Value :=
  match k with
  | .addK => add a b
  | .subK => sub a b
  | .mulK => mul a b
  | .divK => truediv a b
  | .eqK =>
    match eq insts a b with
    | some r => .ok (.bool r)
    | none => .error .recursionError
  | .neK =>
    match ne insts a b with
    | some r => .ok (.bool r)
    | none => .error .recursionError
  | .ltK => lt a b
  | .leK => le a b
  | .gtK => gt a b
  | .geK => ge a b

/-- Dispatch of `UnaryOp.eval`'s stored operator. -/
def applyUn (k : UnK) (v : Value) : Except RtErr Value :=
  match k with
  | .negK => neg v
  | .notK => .ok (not_ v)

/-- Expression nodes of `lox/ast.py`.  `Literal` values produced by the
transformer are only nil/bool/number/string.  Parameters of `Call` are the
(already non-`None`) argument expressions. -/
inductive Expr where
  | lit (value : Value)
  | var (name : String)
  | binop (left right : Expr) (op : BinK)
  | unop (operand : Expr) (op : UnK)
  | andE (left right : Expr)
  | orE (left right : Expr)
  | call (callee : Expr) (params : List Expr)
  | thisE
  | superE (method : String)
  | assign (name : String) (value : Expr)
  | getattrE (obj : Expr) (name : String)
  | setattrE (obj : Expr) (name : String) (value : Expr)

mutual
/-- Statement nodes of `lox/ast.py`.  A `Function`'s `params` are the
parameter names (the source stores `Var` nodes and extracts `.name`);
`Block` bodies are statement lists. -/
inductive Stmt where
  | exprStmt (expr : Expr)
  | varDef (name : String) (init : Expr)
  | ifS (cond : Expr) (thenB elseB : Stmt)
  | whileS (cond : Expr) (body : Stmt)
  | block (stmts : List Stmt)
  | funDef (name : String) (params : List String) (body : List Stmt)
  | classDef (name : String) (methods : List MethodNode) (superclass : Option String)
  | returnS (value : Option Expr)

/-- `Method` nodes owned by a `Class` declaration. -/
inductive MethodNode where
  | mk (name : String) (params : List String) (body : List Stmt)
end

/-- Runtime closure (`LoxFunction`): name, parameter names, body statements
of its `Block`, and the captured environment (an id into the frame heap). -/
structure LoxFunction where
  name : String
  params : List String
  body : List Stmt
  ctx : Nat

/-- Modelled from the spec: `lox/ctx.py` is not among the sources.  §3/§4.1
describe an environment as a mutable name-to-value mapping with an optional
parent reference; frames live in a heap so that many closures can share one. -/
structure Frame where
  parent : Option Nat
  vars : List (String × Value)

/-- Interpreter state: the environment heap, the closure heap and the
instance heap (Python object identity becomes the index). -/
structure St where
  envs : List Frame
  fns : List LoxFunction
  insts : List LoxInstance

/-- Modelled from the spec: §4.1 `get` walks outward from the innermost
environment until a binding is found or the chain is exhausted.  The fuel is
only a termination bound; reachable states have acyclic parent chains no
longer than the heap. -/
def envGetAux : Nat → St → Nat → String → Option Value
  | 0, _, _, _ => none
  | fuel + 1, st, eid, name =>
    match st.envs[eid]? with
    | none => none
    | some f =>
      match lookupA f.vars name with
      | some v => some v
      | none =>
        match f.parent with
        | some p => envGetAux fuel st p name
        | none => none

def envGet (st : St) (eid : Nat) (name : String) : Option Value :=
  envGetAux (st.envs.length + 1) st eid name

/-- Modelled from the spec: §4.1 `assign` walks outward for an existing
binding and mutates it in place; `none` is the `UndefinedVariable` failure
when no binding exists anywhere in the chain. -/
def envAssignAux : Nat → St → Nat → String → Value → Option St
  | 0, _, _, _, _ => none
  | fuel + 1, st, eid, name, v =>
    match st.envs[eid]? with
    | none => none
    | some f =>
      match lookupA f.vars name with
      | some _ =>
        some { st with envs := st.envs.set eid ⟨f.parent, updateAssoc f.vars name v⟩ }
      | none =>
        match f.parent with
        | some p => envAssignAux fuel st p name v
        | none => none

def envAssign (st : St) (eid : Nat) (name : String) (v : Value) : Option St :=
  envAssignAux (st.envs.length + 1) st eid name v

/-- Modelled from the spec: §4.1 `define` adds a binding in the current
scope, shadowing any outer binding of the same name. -/
def envDefine (st : St) (eid : Nat) (name : String) (v : Value) : St :=
  match st.envs[eid]? with
  | some f => { st with envs := st.envs.set eid ⟨f.parent, updateAssoc f.vars name v⟩ }
  | none => st

/-- Modelled from the spec: §4.1 `push(extra_bindings)` returns a fresh child
environment pre-populated with the given bindings. -/
def envPush (st : St) (parent : Nat) (bindings : List (String × Value)) : Nat × St :=
  (st.envs.length, { st with envs := st.envs ++ [⟨some parent, bindings⟩] })

/-- Allocate a closure on the heap, returning its id. -/
def allocFn (st : St) (f : LoxFunction) : Nat × St :=
  (st.fns.length, { st with fns := st.fns ++ [f] })

/-- `LoxFunction.bind`: a new closure sharing name/params/body whose
environment is a fresh child frame defining `this`. -/
def bindFn (st : St) (fid : Nat) (obj : Value) : Nat × St :=
  let f := st.fns.getD fid ⟨"", [], [], 0⟩
  let (eid, st₁) := envPush st f.ctx [("this", obj)]
  allocFn st₁ ⟨f.name, f.params, f.body, eid⟩

/-- `Class.eval`'s method construction: one closure per `Method`, all
capturing `mctx`, collected into a method dict. -/
def evalMethods : List MethodNode → Nat → List (String × Nat) → St →
    List (String × Nat) × St
  | [], _, acc, st => (acc, st)
  | .mk mname mparams mbody :: rest, mctx, acc, st =>
    let (fid, st₁) := allocFn st ⟨mname, mparams, mbody, mctx⟩
    evalMethods rest mctx (updateAssoc acc mname fid) st₁

/-- `LoxInstance.__getattr__` together with Python's attribute protocol on a
`LoxInstance`: the instance `__dict__` first (which always holds `klass`),
then the class-level Python method `init`, then the Lox method chain, bound
to the instance.  Host dunder attributes are not modelled. -/
def instGet (st : St) (iid : Nat) (name : String) :
    (Except RtErr Value) × St :=
  match st.insts[iid]? with
  | none => (.error (.attrError name), st)
  | some d =>
    match lookupA d.fields name with
    | some v => (.ok v, st)
    | none =>
      if name == "init" then (.ok (.pyInit iid), st)
      else
        match lookupA d.fields "klass" with
        | some (.klass c) =>
          match c.getMethod name with
          | some fid =>
            let (bfid, st₁) := bindFn st fid (.inst iid)
            (.ok (.fn bfid), st₁)
          | none => (.error (.attrError name), st)
        | _ => (.error (.attrError name), st)

/-- `callable(func)` for the values this core produces. -/
def callable : Value → Bool
  | .fn _ => true
  | .klass _ => true
  | .pyInit _ => true
  | _ => false

/-- Intermediate results of the interpreter: an expression value, a finished
statement, or an evaluated argument list. -/
inductive TRes where
  | v (val : Value)
  | u
  | vs (vals : List Value)

/-- Result of one evaluation: normal completion, a raised runtime signal, the
`LoxReturn` control transfer, or fuel exhaustion (no corresponding source
behaviour; concrete runs use ample fuel). -/
inductive Outcome where
  | ok (r : TRes)
  | err (e : RtErr)
  | ret (v : Value)
  | fuelOut

/-- Work items of the evaluator: expression/statement/sequence evaluation,
argument evaluation, invocation of a callable, and the `while` loop. -/
inductive Task where
  | tE (e : Expr)
  | tS (s : Stmt)
  | tSeq (ss : List Stmt)
  | tArgs (es : List Expr)
  | tCall (f : Value) (args : List Value)
  | tWhile (cond : Expr) (body : Stmt)

def arityMsg (n : Nat) : String :=
  "Expected 0 arguments but got " ++ toString n ++ "."

/-- The tree-walking evaluator: each `.eval` method of `lox/ast.py` and each
`__call__` of `lox/runtime.py` is one branch.  Exceptions propagate as
non-`ok` outcomes together with the state reached so far, as in the host. -/
def exec : Nat → Task → Nat → St → Outcome × St
  | 0, _, _, st => (.fuelOut, st)
  | fuel + 1, task, env, st =>
    match task with
    | .tE e =>
      match e with
      | .lit v => (.ok (.v v), st)
      | .var name =>
        match envGet st env name with
        | some v => (.ok (.v v), st)
        | none => (.err (.nameError name), st)
      | .binop l r k =>
        match exec fuel (.tE l) env st with
        | (.ok (.v lv), st₁) =>
          match exec fuel (.tE r) env st₁ with
          | (.ok (.v rv), st₂) =>
            match applyBin k st₂.insts lv rv with
            | .ok v => (.ok (.v v), st₂)
            | .error er => (.err er, st₂)
          | other => other
        | other => other
      | .unop operand k =>
        match exec fuel (.tE operand) env st with
        | (.ok (.v v), st₁) =>
          match applyUn k v with
          | .ok r => (.ok (.v r), st₁)
          | .error er => (.err er, st₁)
        | other => other
      | .andE l r =>
        match exec fuel (.tE l) env st with
        | (.ok (.v lv), st₁) =>
          -- `if left_val is False or left_val is None: return left_val`
          match lv with
          | .bool false => (.ok (.v lv), st₁)
          | .nil => (.ok (.v lv), st₁)
          | _ => exec fuel (.tE r) env st₁
        | other => other
      | .orE l r =>
        match exec fuel (.tE l) env st with
        | (.ok (.v lv), st₁) =>
          match lv with
          | .bool false => exec fuel (.tE r) env st₁
          | .nil => exec fuel (.tE r) env st₁
          | _ =>
            -- the source's special cases for `0` and `""`, each of which
            -- returns `left_val` just like the fall-through does
            match lv with
            | .num n => (.ok (.v (if n.eqZero then lv else lv)), st₁)
            | .str s => (.ok (.v (if s == "" then lv else lv)), st₁)
            | _ => (.ok (.v lv), st₁)
        | other => other
      | .call callee params =>
        match exec fuel (.tE callee) env st with
        | (.ok (.v f), st₁) =>
          match exec fuel (.tArgs params) env st₁ with
          | (.ok (.vs args), st₂) =>
            if callable f then exec fuel (.tCall f args) env st₂
            else (.err (.typeError "not callable"), st₂)
          | other => other
        | other => other
      | .thisE =>
        match envGet st env "this" with
        | some v => (.ok (.v v), st)
        | none => (.err (.nameError "this"), st)
      | .superE mname =>
        match envGet st env "super" with
        | none => (.err (.keyError "super"), st)
        | some sv =>
          match envGet st env "this" with
          | none => (.err (.keyError "this"), st)
          | some thisV =>
            match sv with
            | .klass sc =>
              match sc.getMethod mname with
              | some fid =>
                let (bfid, st₁) := bindFn st fid thisV
                (.ok (.v (.fn bfid)), st₁)
              | none => (.err (.loxError ("Undefined property " ++ mname ++ ".")), st)
            | _ => (.err (.attrError "get_method"), st)
      | .assign name value =>
        match exec fuel (.tE value) env st with
        | (.ok (.v v), st₁) =>
          match envAssign st₁ env name v with
          | some st₂ => (.ok (.v v), st₂)
          | none => (.err (.nameError name), st₁)
        | other => other
      | .getattrE obj name =>
        match exec fuel (.tE obj) env st with
        | (.ok (.v ov), st₁) =>
          match ov with
          | .inst iid =>
            match instGet st₁ iid name with
            | (.ok v, st₂) => (.ok (.v v), st₂)
            | (.error er, st₂) => (.err er, st₂)
          | _ => (.err (.attrError name), st₁)
        | other => other
      | .setattrE obj name value =>
        match exec fuel (.tE obj) env st with
        | (.ok (.v ov), st₁) =>
          match exec fuel (.tE value) env st₁ with
          | (.ok (.v v), st₂) =>
            match ov with
            | .klass _ => (.err (.loxError "Apenas instancias podem ter campos."), st₂)
            | .fn _ => (.err (.loxError "Apenas instancias podem ter campos."), st₂)
            | .inst iid =>
              match st₂.insts[iid]? with
              | some d =>
                (.ok (.v v),
                 { st₂ with insts := st₂.insts.set iid ⟨updateAssoc d.fields name v⟩ })
              | none => (.err (.attrError name), st₂)
            | _ => (.err (.attrError name), st₂)
          | other => other
        | other => other
    | .tS s =>
      match s with
      | .exprStmt e =>
        match exec fuel (.tE e) env st with
        | (.ok _, st₁) => (.ok .u, st₁)
        | other => other
      | .varDef name init =>
        match exec fuel (.tE init) env st with
        | (.ok (.v v), st₁) => (.ok .u, envDefine st₁ env name v)
        | other => other
      | .ifS c t e =>
        match exec fuel (.tE c) env st with
        | (.ok (.v cv), st₁) =>
          match cv with
          | .bool false => exec fuel (.tS e) env st₁
          | .nil => exec fuel (.tS e) env st₁
          | _ => exec fuel (.tS t) env st₁
        | other => other
      | .whileS c b => exec fuel (.tWhile c b) env st
      | .block ss =>
        let (eid, st₁) := envPush st env []
        exec fuel (.tSeq ss) eid st₁
      | .funDef name params body =>
        let (fid, st₁) := allocFn st ⟨name, params, body, env⟩
        (.ok .u, envDefine st₁ env name (.fn fid))
      | .classDef name methods superclass =>
        match superclass with
        | none =>
          let (ms, st₁) := evalMethods methods env [] st
          (.ok .u, envDefine st₁ env name (.klass (.base name ms)))
        | some sname =>
          match envGet st env sname with
          | none => (.err (.keyError sname), st)
          | some sv =>
            match sv with
            | .klass sc =>
              let (mctx, st₁) := envPush st env [("super", .klass sc)]
              let (ms, st₂) := evalMethods methods mctx [] st₁
              (.ok .u, envDefine st₂ env name (.klass (.derived name ms sc)))
            | _ => (.err (.runtimeError "Superclass must be a class."), st)
      | .returnS value =>
        match value with
        | some e =>
          match exec fuel (.tE e) env st with
          | (.ok (.v v), st₁) => (.ret v, st₁)
          | other => other
        | none => (.ret .nil, st)
    | .tSeq ss =>
      match ss with
      | [] => (.ok .u, st)
      | s :: rest =>
        match exec fuel (.tS s) env st with
        | (.ok _, st₁) => exec fuel (.tSeq rest) env st₁
        | other => other
    | .tArgs es =>
      match es with
      | [] => (.ok (.vs []), st)
      | e :: rest =>
        match exec fuel (.tE e) env st with
        | (.ok (.v v), st₁) =>
          match exec fuel (.tArgs rest) env st₁ with
          | (.ok (.vs tl), st₂) => (.ok (.vs (v :: tl)), st₂)
          | other => other
        | other => other
    | .tWhile c b =>
      match exec fuel (.tE c) env st with
      | (.ok (.v cv), st₁) =>
        match cv with
        | .bool false => (.ok .u, st₁)
        | .nil => (.ok .u, st₁)
        | _ =>
          match exec fuel (.tS b) env st₁ with
          | (.ok _, st₂) => exec fuel (.tWhile c b) env st₂
          | other => other
      | other => other
    | .tCall f args =>
      match f with
      | .fn fid =>
        match st.fns[fid]? with
        | none => (.err (.typeError "not callable"), st)
        | some fv =>
          if args.length != fv.params.length then
            (.err (.typeError (fv.name ++ " esperava " ++ toString fv.params.length
              ++ " argumentos, mas recebeu " ++ toString args.length ++ ".")), st)
          else
            let (ceid, st₁) := envPush st fv.ctx (fv.params.zip args)
            match exec fuel (.tS (.block fv.body)) ceid st₁ with
            | (.ok _, st₂) => (.ok (.v .nil), st₂)
            | (.ret v, st₂) => (.ok (.v v), st₂)
            | other => other
      | .klass c =>
        -- `LoxClass.__call__`: create the instance, then the wide
        -- `try: get_method/bind/call ... except LoxError` block
        let iid := st.insts.length
        let st₁ := { st with insts := st.insts ++ [⟨initFields c⟩] }
        match c.getMethod "init" with
        | some fid =>
          let (bfid, st₂) := bindFn st₁ fid (.inst iid)
          match exec fuel (.tCall (.fn bfid) args) env st₂ with
          | (.ok _, st₃) => (.ok (.v (.inst iid)), st₃)
          | (.err (.loxError _), st₃) =>
            -- a LoxError raised while the init body ran is also caught here
            if args.isEmpty then (.ok (.v (.inst iid)), st₃)
            else (.err (.typeError (arityMsg args.length)), st₃)
          | other => other
        | none =>
          if args.isEmpty then (.ok (.v (.inst iid)), st₁)
          else (.err (.typeError (arityMsg args.length)), st₁)
      | .pyInit iid =>
        -- `LoxInstance.init`: run the chain's init, return the instance
        match st.insts[iid]? with
        | none => (.err (.attrError "init"), st)
        | some d =>
          match lookupA d.fields "klass" with
          | some (.klass c) =>
            match c.getMethod "init" with
            | some fid =>
              let (bfid, st₁) := bindFn st fid (.inst iid)
              match exec fuel (.tCall (.fn bfid) args) env st₁ with
              | (.ok _, st₂) => (.ok (.v (.inst iid)), st₂)
              | (.err (.loxError _), st₂) => (.err (.attrError "init"), st₂)
              | other => other
            | none => (.err (.attrError "init"), st)
          | _ => (.err (.attrError "init"), st)
      | _ => (.err (.typeError "not callable"), st)

/-- Initial state: one root environment, empty heaps. -/
def st0 : St := ⟨[⟨none, []⟩], [], []⟩

/-- `Program.eval`: run the statements in order against the root environment. -/
def runProg (fuel : Nat) (prog : List Stmt) : Outcome × St :=
  exec fuel (.tSeq prog) 0 st0

/-! ## Semantic analysis (`validate_self` methods of `lox/ast.py`) -/

/-- `errors.SemanticError` (its module is not among the sources; the fields
are those `ast.py` passes: a message and the offending token). -/
structure SemanticError where
  msg : String
  token : String
deriving DecidableEq, Repr

def RESERVED_WORDS : List String :=
  ["and", "class", "else", "false", "for", "fun", "if", "nil",
   "or", "print", "return", "this", "true", "var", "while"]

/-- Ancestor-chain entry, innermost first.  Modelled from the spec: the
cursor of `lox/node.py` is not among the sources; §4.4 describes it as an
ancestor chain each node can query for the nearest class/function/method. -/
inductive Anc where
  | aClass (superclass : Option String)
  | aFunction
  | aMethod (name : String)
  | aBlock
  | aOther
deriving DecidableEq, Repr

/-- The sub-walk `initializer.visit({Var: check})` performs: does the
expression subtree contain a `Var` node with the given name? -/
def exprHasVar : Expr → String → Bool
  | .lit _, _ => false
  | .var n, x => n == x
  | .binop l r _, x => exprHasVar l x || exprHasVar r x
  | .unop o _, x => exprHasVar o x
  | .andE l r, x => exprHasVar l x || exprHasVar r x
  | .orE l r, x => exprHasVar l x || exprHasVar r x
  | .call c ps, x => exprHasVar c x || exprListHasVar ps x
  | .thisE, _ => false
  | .superE _, _ => false
  | .assign _ v, x => exprHasVar v x
  | .getattrE o _, x => exprHasVar o x
  | .setattrE o _ v, x => exprHasVar o x || exprHasVar v x
where exprListHasVar : List Expr → String → Bool
  | [], _ => false
  | e :: es, x => exprHasVar e x || exprListHasVar es x

def reservedVarMsg (name : String) : String :=
  "Nao e possivel usar a palavra reservada \x27" ++ name ++ "\x27 como nome de variavel."

def selfInitMsg : String := "Can\x27t read local variable in its own initializer."

/-- `Var.validate_self`: variable names may not be reserved words. -/
def validateVar (name : String) : Except SemanticError Unit :=
  if RESERVED_WORDS.contains name then .error ⟨reservedVarMsg name, name⟩
  else .ok ()

def Anc.isClass : Anc → Bool
  | .aClass _ => true
  | _ => false

/-- `This.validate_self`: some ancestor must be a class. -/
def validateThisNode (anc : List Anc) : Except SemanticError Unit :=
  if anc.any Anc.isClass then .ok ()
  else .error ⟨"Nao e possivel usar \x27this\x27 fora de uma classe.", "this"⟩

/-- Superclass field of the nearest enclosing class, if any. -/
def firstClassAnc : List Anc → Option (Option String)
  | [] => none
  | .aClass s :: _ => some s
  | _ :: rest => firstClassAnc rest

/-- `Super.validate_self`: the nearest class ancestor must exist and have a
superclass. -/
def validateSuperNode (anc : List Anc) : Except SemanticError Unit :=
  match firstClassAnc anc with
  | some (some _) => .ok ()
  | some none =>
    .error ⟨"Nao e possivel usar \x27super\x27 em uma classe sem superclasse.", "super"⟩
  | none => .error ⟨"Nao e possivel usar \x27super\x27 fora de uma classe.", "super"⟩

/-- The nearest `Function` or `Method` ancestor: `none` if there is none,
`some none` for a function, `some (some m)` for a method named `m`. -/
def firstFunLike : List Anc → Option (Option String)
  | [] => none
  | .aFunction :: _ => some none
  | .aMethod m :: _ => some (some m)
  | _ :: rest => firstFunLike rest

/-- `Return.validate_self`: a return must sit inside a function or method,
and an `init` method may not return a value. -/
def validateReturnNode (anc : List Anc) (hasValue : Bool) :
    Except SemanticError Unit :=
  match firstFunLike anc with
  | some fl =>
    if fl == some "init" && hasValue then
      .error ⟨"Can\x27t return a value from an initializer.", "return"⟩
    else .ok ()
  | none =>
    .error ⟨"Nao e possivel usar \x27return\x27 no nivel superior do codigo.", "return"⟩

/-- `VarDef.validate_self`: reserved-word check, then — only when the
immediate parent is a `Block` — the purely syntactic sub-walk of the
initializer looking for a `Var` with the declared name. -/
def validateVarDefNode (anc : List Anc) (name : String) (init : Expr) :
    Except SemanticError Unit :=
  if RESERVED_WORDS.contains name then .error ⟨reservedVarMsg name, name⟩
  else
    match anc.head? with
    | some .aBlock =>
      if exprHasVar init name then .error ⟨selfInitMsg, name⟩ else .ok ()
    | _ => .ok ()

def findDupVarDef : List Stmt → List String → Option String
  | [], _ => none
  | .varDef n _ :: rest, seen =>
    if seen.contains n then some n else findDupVarDef rest (n :: seen)
  | _ :: rest, seen => findDupVarDef rest seen

/-- `Block.validate_self`: no two `VarDef`s in one block share a name. -/
def validateBlockNode (ss : List Stmt) : Except SemanticError Unit :=
  match findDupVarDef ss [] with
  | some n => .error ⟨"Variavel \x27" ++ n ++ "\x27 ja foi declarada neste bloco.", n⟩
  | none => .ok ()

def findDup : List String → List String → Option String
  | [], _ => none
  | p :: rest, seen => if seen.contains p then some p else findDup rest (p :: seen)

def findShadow : List Stmt → List String → Option String
  | [], _ => none
  | .varDef n _ :: rest, params =>
    if params.contains n then some n else findShadow rest params
  | _ :: rest, params => findShadow rest params

/-- `Function.validate_self`: reserved parameter names, duplicate parameter
names, and body variables shadowing parameters, checked in that order. -/
def validateFunctionNode (params : List String) (body : List Stmt) :
    Except SemanticError Unit :=
  match params.find? RESERVED_WORDS.contains with
  | some p =>
    .error ⟨"Nao e possivel usar a palavra reservada \x27" ++ p
      ++ "\x27 como nome de parametro.", p⟩
  | none =>
    match findDup params [] with
    | some p =>
      .error ⟨"Nome de parametro duplicado \x27" ++ p
        ++ "\x27 na declaracao de funcao.", p⟩
    | none =>
      match findShadow body params with
      | some n =>
        .error ⟨"Variavel \x27" ++ n ++ "\x27 oculta um parametro da funcao.", n⟩
      | none => .ok ()

/-- `Class.validate_self`: a class may not inherit from itself. -/
def validateClassNode (name : String) (superclass : Option String) :
    Except SemanticError Unit :=
  if superclass == some name then
    .error ⟨"A class can\x27t inherit from itself.", name⟩
  else .ok ()

mutual
/-- Modelled from the spec: `lox/node.py`'s traversal is not among the
sources; §4.4 describes a pre-execution depth-first walk carrying the
ancestor chain, fail-fast on the first error.  Each node runs its
`validate_self`, then its children are walked with the node pushed. -/
def validateE (anc : List Anc) : Expr → Except SemanticError Unit
  | .lit _ => .ok ()
  | .var n => validateVar n
  | .binop l r _ => do
    validateE (.aOther :: anc) l
    validateE (.aOther :: anc) r
  | .unop o _ => validateE (.aOther :: anc) o
  | .andE l r => do
    validateE (.aOther :: anc) l
    validateE (.aOther :: anc) r
  | .orE l r => do
    validateE (.aOther :: anc) l
    validateE (.aOther :: anc) r
  | .call c ps => do
    validateE (.aOther :: anc) c
    validateEs (.aOther :: anc) ps
  | .thisE => validateThisNode anc
  | .superE _ => validateSuperNode anc
  | .assign _ v => validateE (.aOther :: anc) v
  | .getattrE o _ => validateE (.aOther :: anc) o
  | .setattrE o _ v => do
    validateE (.aOther :: anc) o
    validateE (.aOther :: anc) v

def validateEs (anc : List Anc) : List Expr → Except SemanticError Unit
  | [] => .ok ()
  | e :: es => do
    validateE anc e
    validateEs anc es

def validateS (anc : List Anc) : Stmt → Except SemanticError Unit
  | .exprStmt e => validateE (.aOther :: anc) e
  | .varDef n init => do
    validateVarDefNode anc n init
    validateE (.aOther :: anc) init
  | .ifS c t e => do
    validateE (.aOther :: anc) c
    validateS (.aOther :: anc) t
    validateS (.aOther :: anc) e
  | .whileS c b => do
    validateE (.aOther :: anc) c
    validateS (.aOther :: anc) b
  | .block ss => do
    validateBlockNode ss
    validateSs (.aBlock :: anc) ss
  | .funDef _ params body => do
    validateFunctionNode params body
    -- parameter `Var` nodes are children and get their own reserved check
    validateParams params
    -- the body is a `Block` node: its own check, then its statements
    validateBlockNode body
    validateSs (.aBlock :: .aFunction :: anc) body
  | .classDef n methods sup => do
    validateClassNode n sup
    validateMs (.aClass sup :: anc) methods
  | .returnS value => do
    validateReturnNode anc (value matches some _)
    match value with
    | some e => validateE (.aOther :: anc) e
    | none => .ok ()

def validateSs (anc : List Anc) : List Stmt → Except SemanticError Unit
  | [] => .ok ()
  | s :: ss => do
    validateS anc s
    validateSs anc ss

def validateMs (anc : List Anc) : List MethodNode → Except SemanticError Unit
  | [] => .ok ()
  | .mk mname mparams mbody :: rest => do
    -- `Method` defines no `validate_self`; its children are walked
    validateParams mparams
    validateBlockNode mbody
    validateSs (.aBlock :: .aMethod mname :: anc) mbody
    validateMs anc rest

def validateParams : List String → Except SemanticError Unit
  | [] => .ok ()
  | p :: ps => do
    validateVar p
    validateParams ps
end

/-- Whole-program analysis: walk every statement with the `Program` node as
the only ancestor. -/
def validateProgram (prog : List Stmt) : Except SemanticError Unit :=
  validateSs [.aOther] prog

/-! ## Helper lemmas -/

theorem lookupA_updateAssoc_self {α : Type} (fs : List (String × α)) (k : String) (v : α) :
    lookupA (updateAssoc fs k v) k = some v := by
  induction fs with
  | nil => simp [updateAssoc, lookupA]
  | cons hd tl ih =>
    obtain ⟨k₀, w⟩ := hd
    by_cases h : k₀ = k
    · subst h; simp [updateAssoc, lookupA]
    · simp [updateAssoc, lookupA, h, ih]

theorem lookupA_updateAssoc_ne {α : Type} (fs : List (String × α)) (k key : String) (v : α)
    (h : k ≠ key) : lookupA (updateAssoc fs k v) key = lookupA fs key := by
  induction fs with
  | nil => simp [updateAssoc, lookupA, h]
  | cons hd tl ih =>
    obtain ⟨k₀, w⟩ := hd
    by_cases h₀ : k₀ = k
    · subst h₀; simp [updateAssoc, lookupA, h]
    · simp [updateAssoc, lookupA, h₀, ih]

theorem dictEq_refl (ms : List (String × Nat)) : dictEq ms ms = true := by
  simp [dictEq, List.all_eq_true]

theorem classEq_refl (c : LoxClass) : c.classEq c = true := by
  induction c with
  | base n ms => simp [LoxClass.classEq, dictEq_refl]
  | derived n ms s ih => simp [LoxClass.classEq, dictEq_refl, ih]

theorem gtZero_not_eqZero (x : LoxNum) (h : x.gtZero = true) : x.eqZero = false := by
  cases x <;> simp_all [LoxNum.gtZero, LoxNum.eqZero, Frac.isPos, Frac.isZero]
  omega

theorem ltZero_not_eqZero (x : LoxNum) (h : x.ltZero = true) : x.eqZero = false := by
  cases x <;> simp_all [LoxNum.ltZero, LoxNum.eqZero, Frac.isNeg, Frac.isZero]
  omega

/-! ## Claims -/

/-- C6: for every numeric pair `(a, b)` with `b == 0`, division returns NaN
when `a == 0`, a positive infinity when `a > 0`, a negative infinity when
`a < 0` (the signed infinity matches the dividend's sign), and division of
numbers never raises an error. -/
theorem claim_C6_division_by_zero :
    (∀ x y : LoxNum, y.eqZero = true → x.eqZero = true →
      truediv (.num x) (.num y) = .ok (.num .nan)) ∧
    (∀ x y : LoxNum, y.eqZero = true → x.gtZero = true →
      truediv (.num x) (.num y) = .ok (.num (.inf true))) ∧
    (∀ x y : LoxNum, y.eqZero = true → x.ltZero = true →
      truediv (.num x) (.num y) = .ok (.num (.inf false))) ∧
    (∀ x y : LoxNum, ∃ v, truediv (.num x) (.num y) = .ok v) := by
  refine ⟨?_, ?_, ?_, ?_⟩
  · intro x y hy hx
    simp [truediv, checkNumbers, hy, hx]
  · intro x y hy hx
    simp [truediv, checkNumbers, hy, hx, gtZero_not_eqZero x hx]
  · intro x y hy hx
    have hne : x.gtZero = false := by
      cases x <;> simp_all [LoxNum.gtZero, LoxNum.ltZero, Frac.isPos, Frac.isNeg]
      omega
    simp [truediv, checkNumbers, hy, hne, ltZero_not_eqZero x hx]
  · intro x y
    by_cases hy : y.eqZero = true
    · by_cases hx : x.eqZero = true
      · exact ⟨.num .nan, by simp [truediv, checkNumbers, hy, hx]⟩
      · exact ⟨.num (if x.gtZero then .inf true else .inf false),
          by simp [truediv, checkNumbers, hy, hx]⟩
    · exact ⟨.num (x.numDivNZ y), by simp [truediv, checkNumbers, hy]⟩

/-- C6 witness: concrete divisions `0/0`, `5/0`, `(-5)/0` and a total
division of numbers. -/
theorem claim_C6_division_by_zero_witness :
    truediv (.num (.fin ⟨0, 1⟩)) (.num (.fin ⟨0, 1⟩)) = .ok (.num .nan) ∧
    truediv (.num (.fin ⟨5, 1⟩)) (.num (.fin ⟨0, 1⟩)) = .ok (.num (.inf true)) ∧
    truediv (.num (.fin ⟨-5, 1⟩)) (.num (.fin ⟨0, 1⟩)) = .ok (.num (.inf false)) ∧
    ∃ v, truediv (.num (.fin ⟨1, 1⟩)) (.num (.fin ⟨0, 1⟩)) = .ok v :=
  ⟨claim_C6_division_by_zero.1 _ _ (by decide) (by decide),
   claim_C6_division_by_zero.2.1 _ _ (by decide) (by decide),
   claim_C6_division_by_zero.2.2.1 _ _ (by decide) (by decide),
   claim_C6_division_by_zero.2.2.2 _ _⟩

/-- C4: equality returns false for operands of different runtime kinds;
false whenever either float operand is NaN (including NaN with itself);
closures compare by reference identity; nil, booleans, strings and non-NaN
numbers compare by value. -/
theorem claim_C4_equality_rules :
    (∀ insts (a b : Value), a.kind ≠ b.kind → eq insts a b = some false) ∧
    (∀ insts (x y : LoxNum), x.isNan = true → eq insts (.num x) (.num y) = some false) ∧
    (∀ insts (x y : LoxNum), y.isNan = true → eq insts (.num x) (.num y) = some false) ∧
    (∀ insts (i j : Nat), eq insts (.fn i) (.fn j) = some (i == j)) ∧
    (∀ insts (s t : String), eq insts (.str s) (.str t) = some (s == t)) ∧
    (∀ insts (p q : Bool), eq insts (.bool p) (.bool q) = some (p == q)) ∧
    (∀ insts, eq insts .nil .nil = some true) ∧
    (∀ insts (x y : LoxNum), x.isNan = false → y.isNan = false →
      eq insts (.num x) (.num y) = some (x.numEq y)) := by
  refine ⟨?_, ?_, ?_, ?_, ?_, ?_, ?_, ?_⟩
  · intro insts a b h
    have hb : (a.kind != b.kind) = true := by simpa [bne_iff_ne] using h
    simp [eq, hb]
  · intro insts x y h
    simp [eq, Value.kind, h]
  · intro insts x y h
    simp [eq, Value.kind, h]
  · intro insts i j
    simp [eq, Value.kind, pyEq, pyEqFuel]
  · intro insts s t
    simp [eq, Value.kind, pyEq, pyEqFuel]
  · intro insts p q
    simp [eq, Value.kind, pyEq, pyEqFuel]
  · intro insts
    simp [eq, Value.kind, pyEq, pyEqFuel]
  · intro insts x y hx hy
    simp [eq, Value.kind, hx, hy]

/-- C4 witness: concrete equalities — nil against a string, NaN against
itself, two distinct and two identical closure references, strings and
numbers by value. -/
theorem claim_C4_equality_rules_witness :
    eq [] .nil (.str "") = some false ∧
    eq [] (.num .nan) (.num .nan) = some false ∧
    eq [] (.fn 0) (.fn 1) = some false ∧
    eq [] (.fn 0) (.fn 0) = some true ∧
    eq [] (.str "ab") (.str "ab") = some true ∧
    eq [] (.num (.fin ⟨1, 1⟩)) (.num (.fin ⟨1, 1⟩)) = some true := by
  refine ⟨claim_C4_equality_rules.1 [] .nil (.str "") (by decide), ?_, ?_, ?_, ?_, ?_⟩
  · exact claim_C4_equality_rules.2.1 [] .nan .nan rfl
  · simpa using claim_C4_equality_rules.2.2.2.1 [] 0 1
  · simpa using claim_C4_equality_rules.2.2.2.1 [] 0 0
  · simpa using claim_C4_equality_rules.2.2.2.2.1 [] "ab" "ab"
  · simpa using claim_C4_equality_rules.2.2.2.2.2.2.2 [] (.fin ⟨1, 1⟩) (.fin ⟨1, 1⟩) rfl rfl

/-- The program `var x = 1; { var x = x; }` from the spec's §8 test list. -/
def progC2 : List Stmt :=
  [.varDef "x" (.lit (.num (.fin ⟨1, 1⟩))),
   .block [.varDef "x" (.var "x")]]

/-- C2 counterexample: the claim says `var x = 1; { var x = x; }` passes
semantic analysis because the outer `x` is visible to the inner initializer;
the analyzer in the source is purely syntactic and rejects it. -/
theorem claim_C2_counterexample :
    validateProgram progC2 = .error ⟨selfInitMsg, "x"⟩ := rfl

/-- C2 amended: a variable declaration whose immediate parent is a block and
whose initializer mentions the declared name anywhere in its subtree is
rejected, regardless of any outer binding of that name; in particular
`var x = 1; { var x = x; }` fails analysis. -/
theorem claim_C2_blocklocal_selfref_rejected :
    (∀ (anc : List Anc) (name : String) (init : Expr),
      anc.head? = some .aBlock →
      RESERVED_WORDS.contains name = false →
      exprHasVar init name = true →
      validateVarDefNode anc name init = .error ⟨selfInitMsg, name⟩) ∧
    validateProgram progC2 = .error ⟨selfInitMsg, "x"⟩ := by
  constructor
  · intro anc name init hhead hres hhas
    have hres' : ¬ name ∈ RESERVED_WORDS := by simpa using hres
    simp [validateVarDefNode, hres', hhead, hhas]
  · rfl

/-- C2 witness: the inner declaration of `{ var x = x; }` concretely. -/
theorem claim_C2_blocklocal_selfref_rejected_witness :
    validateVarDefNode [.aBlock, .aOther] "x" (.var "x") = .error ⟨selfInitMsg, "x"⟩ :=
  claim_C2_blocklocal_selfref_rejected.1 [.aBlock, .aOther] "x" (.var "x")
    rfl (by decide) rfl

/-- `class C {} var a = C(); var b = C(); a.klass = 1; var r = a == b;` -/
def progC9 : List Stmt :=
  [.classDef "C" [] none,
   .varDef "a" (.call (.var "C") []),
   .varDef "b" (.call (.var "C") []),
   .exprStmt (.setattrE (.var "a") "klass" (.lit (.num (.fin ⟨1, 1⟩)))),
   .varDef "r" (.binop (.var "a") (.var "b") .eqK)]

/-- C9 counterexample: two instances of the same class `C` compare unequal
after a field write named `klass` on one of them — instance equality reads
the current `klass` attribute (the dataclass field lives in the instance
dictionary and can be overwritten), so it is not independent of field
writes. -/
theorem claim_C9_counterexample :
    envGet (runProg 60 progC9).2 0 "a" = some (.inst 0) ∧
    envGet (runProg 60 progC9).2 0 "b" = some (.inst 1) ∧
    envGet (runProg 60 progC9).2 0 "r" = some (.bool false) :=
  ⟨rfl, rfl, rfl⟩

/-- C9 amended: two instances whose current `klass` attributes are the same
class value compare equal whatever their other fields hold, and a field
write under any name other than `klass` leaves the `klass` attribute — and
hence instance equality — unchanged. -/
theorem claim_C9_instance_equality_amended :
    (∀ insts (i j : Nat) (c : LoxClass),
      klassAttr insts i = .klass c → klassAttr insts j = .klass c →
      eq insts (.inst i) (.inst j) = some true) ∧
    (∀ (insts : List LoxInstance) (iid : Nat) (d : LoxInstance)
        (name : String) (v : Value),
      insts[iid]? = some d → name ≠ "klass" →
      klassAttr (insts.set iid ⟨updateAssoc d.fields name v⟩) iid
        = klassAttr insts iid) := by
  constructor
  · intro insts i j c hi hj
    have h1000 : pyEqFuel = 999 + 1 := rfl
    simp only [eq, Value.kind, bne_self_eq_false, Bool.false_eq_true, if_false, h1000]
    simp [pyEq, hi, hj, classEq_refl]
  · intro insts iid d name v hd hne
    have hlt : iid < insts.length := by
      by_contra hge
      simp [List.getElem?_eq_none (Nat.le_of_not_lt hge)] at hd
    simp [klassAttr, List.getElem?_set_self, hlt, hd,
      lookupA_updateAssoc_ne d.fields name "klass" v hne]

/-- C9 amended witness: instances 0 and 1 of class `C` with an extra field
on instance 0 compare equal; writing field `x` preserves the `klass`
attribute. -/
theorem claim_C9_instance_equality_amended_witness :
    eq [⟨[("klass", .klass (.base "C" [])), ("x", .num (.fin ⟨1, 1⟩))]⟩,
        ⟨[("klass", .klass (.base "C" []))]⟩] (.inst 0) (.inst 1) = some true ∧
    klassAttr ([⟨initFields (.base "C" [])⟩].set 0
        ⟨updateAssoc (initFields (.base "C" [])) "x" .nil⟩) 0
      = klassAttr [⟨initFields (.base "C" [])⟩] 0 :=
  ⟨claim_C9_instance_equality_amended.1 _ 0 1 (.base "C" []) rfl rfl,
   claim_C9_instance_equality_amended.2 _ 0 ⟨initFields (.base "C" [])⟩ "x" .nil
     rfl (by decide)⟩

theorem lookupA_foldl_ne {α : Type} (key : String) :
    ∀ (ws : List (String × α)) (fs : List (String × α)),
      (∀ w ∈ ws, w.1 ≠ key) →
      lookupA (ws.foldl (fun fs w => updateAssoc fs w.1 w.2) fs) key = lookupA fs key := by
  intro ws
  induction ws with
  | nil => intro fs _; rfl
  | cons w rest ih =>
    intro fs h
    have hw : w.1 ≠ key := h w (List.mem_cons_self w rest)
    have hrest : ∀ w' ∈ rest, w'.1 ≠ key := fun w' hm => h w' (List.mem_cons_of_mem w hm)
    simp only [List.foldl_cons]
    rw [ih (updateAssoc fs w.1 w.2) hrest, lookupA_updateAssoc_ne fs w.1 key w.2 hw]

/-- C10: an attribute read of `klass` finds the instance-dictionary entry
installed at construction (and preserved by writes under other names) and
returns the class object; an attribute read of `init` that finds no field
succeeds with the host-level bound method even when no `init` method exists
anywhere in the class chain; neither read reaches the undefined-property
failure. -/
theorem claim_C10_klass_and_init_reads :
    (∀ (st : St) (iid : Nat) (d : LoxInstance) (c : LoxClass),
      st.insts[iid]? = some d → lookupA d.fields "klass" = some (.klass c) →
      instGet st iid "klass" = (.ok (.klass c), st)) ∧
    (∀ (c : LoxClass) (ws : List (String × Value)),
      (∀ w ∈ ws, w.1 ≠ "klass") →
      lookupA (ws.foldl (fun fs w => updateAssoc fs w.1 w.2) (initFields c)) "klass"
        = some (.klass c)) ∧
    (∀ (st : St) (iid : Nat) (d : LoxInstance) (c : LoxClass),
      st.insts[iid]? = some d → lookupA d.fields "init" = none →
      klassAttr st.insts iid = .klass c → c.getMethod "init" = none →
      instGet st iid "init" = (.ok (.pyInit iid), st)) := by
  refine ⟨?_, ?_, ?_⟩
  · intro st iid d c hd hk
    simp [instGet, hd, hk]
  · intro c ws h
    rw [lookupA_foldl_ne "klass" ws (initFields c) h]
    rfl
  · intro st iid d c hd hinit _ _
    simp [instGet, hd, hinit]

/-- C10 witness: a fresh instance of a method-less class `D`. -/
theorem claim_C10_klass_and_init_reads_witness :
    instGet ⟨[⟨none, []⟩], [], [⟨initFields (.base "D" [])⟩]⟩ 0 "klass"
      = (.ok (.klass (.base "D" [])), ⟨[⟨none, []⟩], [], [⟨initFields (.base "D" [])⟩]⟩) ∧
    lookupA ([("y", Value.nil)].foldl (fun fs w => updateAssoc fs w.1 w.2)
        (initFields (.base "D" []))) "klass" = some (.klass (.base "D" [])) ∧
    instGet ⟨[⟨none, []⟩], [], [⟨initFields (.base "D" [])⟩]⟩ 0 "init"
      = (.ok (.pyInit 0), ⟨[⟨none, []⟩], [], [⟨initFields (.base "D" [])⟩]⟩) :=
  ⟨claim_C10_klass_and_init_reads.1 _ 0 ⟨initFields (.base "D" [])⟩ (.base "D" []) rfl rfl,
   claim_C10_klass_and_init_reads.2.1 (.base "D" []) [("y", Value.nil)] (by decide),
   claim_C10_klass_and_init_reads.2.2 _ 0 ⟨initFields (.base "D" [])⟩ (.base "D" [])
     rfl rfl rfl rfl⟩

/-- C5: `and`/`or` evaluate the left operand first; when it decides the
outcome (falsy for `and`, truthy for `or`) the left value is returned
exactly as produced, with the state exactly as the left evaluation left it
and the right operand — arbitrary — never evaluated; otherwise the whole
expression behaves as the right operand's evaluation.  The source's special
cases for numeric `0` and the empty string under `or` collapse to the pure
truthiness rule. -/
theorem claim_C5_and_or_short_circuit :
    (∀ (fuel env : Nat) (st : St) (l : Expr) (v : Value) (st₁ : St),
      exec fuel (.tE l) env st = (.ok (.v v), st₁) → truthy v = false →
      ∀ r, exec (fuel + 1) (.tE (.andE l r)) env st = (.ok (.v v), st₁)) ∧
    (∀ (fuel env : Nat) (st : St) (l : Expr) (v : Value) (st₁ : St),
      exec fuel (.tE l) env st = (.ok (.v v), st₁) → truthy v = true →
      ∀ r, exec (fuel + 1) (.tE (.andE l r)) env st = exec fuel (.tE r) env st₁) ∧
    (∀ (fuel env : Nat) (st : St) (l : Expr) (v : Value) (st₁ : St),
      exec fuel (.tE l) env st = (.ok (.v v), st₁) → truthy v = true →
      ∀ r, exec (fuel + 1) (.tE (.orE l r)) env st = (.ok (.v v), st₁)) ∧
    (∀ (fuel env : Nat) (st : St) (l : Expr) (v : Value) (st₁ : St),
      exec fuel (.tE l) env st = (.ok (.v v), st₁) → truthy v = false →
      ∀ r, exec (fuel + 1) (.tE (.orE l r)) env st = exec fuel (.tE r) env st₁) := by
  refine ⟨?_, ?_, ?_, ?_⟩
  all_goals intro fuel env st l v st₁ hL hT r
  all_goals cases v <;> simp_all [truthy, exec]
  all_goals rename_i b; cases b <;> simp_all

/-- C5 witness: left operand `0` is truthy, so `0 or <anything>` returns `0`
itself without touching the right operand (an unbound-variable reference
that would fail if evaluated), and `0 and r` continues with `r`. -/
theorem claim_C5_and_or_short_circuit_witness :
    exec 2 (.tE (.orE (.lit (.num (.fin ⟨0, 1⟩))) (.var "boom"))) 0 st0
      = (.ok (.v (.num (.fin ⟨0, 1⟩))), st0) ∧
    exec 2 (.tE (.andE (.lit (.num (.fin ⟨0, 1⟩))) (.var "boom"))) 0 st0
      = exec 1 (.tE (.var "boom")) 0 st0 :=
  ⟨claim_C5_and_or_short_circuit.2.2.1 1 0 st0 (.lit (.num (.fin ⟨0, 1⟩)))
      (.num (.fin ⟨0, 1⟩)) st0 rfl rfl (.var "boom"),
   claim_C5_and_or_short_circuit.2.1 1 0 st0 (.lit (.num (.fin ⟨0, 1⟩)))
      (.num (.fin ⟨0, 1⟩)) st0 rfl rfl (.var "boom")⟩

/-- The state after `LoxClass.__call__` allocates the new blank instance. -/
def classCallSetup (st : St) (c : LoxClass) : St :=
  { st with insts := st.insts ++ [⟨initFields c⟩] }

/-- C7: calling a class whose chain has no `init` fails with the arity-style
`TypeError` when arguments are passed and returns the fresh instance when
none are; calling a class whose chain has an `init` that completes runs the
bound `init` on the fresh instance and returns that instance with the state
the `init` run produced — every field `init` set is present in it. -/
theorem claim_C7_class_call :
    (∀ (fuel env : Nat) (st : St) (c : LoxClass) (a : Value) (as : List Value),
      c.getMethod "init" = none →
      exec (fuel + 1) (.tCall (.klass c) (a :: as)) env st
        = (.err (.typeError (arityMsg (as.length + 1))), classCallSetup st c)) ∧
    (∀ (fuel env : Nat) (st : St) (c : LoxClass),
      c.getMethod "init" = none →
      exec (fuel + 1) (.tCall (.klass c) []) env st
        = (.ok (.v (.inst st.insts.length)), classCallSetup st c)) ∧
    (∀ (fuel env : Nat) (st : St) (c : LoxClass) (args : List Value)
        (fid : Nat) (r : TRes) (st' : St),
      c.getMethod "init" = some fid →
      exec fuel
        (.tCall (.fn (bindFn (classCallSetup st c) fid (.inst st.insts.length)).1) args)
        env (bindFn (classCallSetup st c) fid (.inst st.insts.length)).2
        = (.ok r, st') →
      exec (fuel + 1) (.tCall (.klass c) args) env st
        = (.ok (.v (.inst st.insts.length)), st')) := by
  refine ⟨?_, ?_, ?_⟩
  · intro fuel env st c a as hm
    simp [exec, hm, classCallSetup, arityMsg]
  · intro fuel env st c hm
    simp [exec, hm, classCallSetup]
  · intro fuel env st c args fid r st' hm hrun
    simp only [classCallSetup] at hrun
    simp only [exec, hm]
    rw [hrun]

/-- C7 witness: a method-less class `N` called with and without an argument,
and a class `P` whose empty-bodied `init` runs and yields the instance. -/
theorem claim_C7_class_call_witness :
    exec 3 (.tCall (.klass (.base "N" [])) [.nil]) 0 st0
      = (.err (.typeError (arityMsg 1)), classCallSetup st0 (.base "N" [])) ∧
    exec 3 (.tCall (.klass (.base "N" [])) []) 0 st0
      = (.ok (.v (.inst 0)), classCallSetup st0 (.base "N" [])) ∧
    (exec 9 (.tCall (.klass (.base "P" [("init", 0)]))  [])
        0 ⟨[⟨none, []⟩], [⟨"init", [], [], 0⟩], []⟩).1
      = .ok (.v (.inst 0)) := by
  refine ⟨?_, ?_, ?_⟩
  · exact claim_C7_class_call.1 2 0 st0 (.base "N" []) .nil [] rfl
  · exact claim_C7_class_call.2.1 2 0 st0 (.base "N" []) rfl
  · rw [claim_C7_class_call.2.2 8 0 ⟨[⟨none, []⟩], [⟨"init", [], [], 0⟩], []⟩
      (.base "P" [("init", 0)]) [] 0 (.v .nil) _ rfl rfl]
    rfl

/-- `class A { m() { return "A"; } }
    class B < A { m() { return "B"; } test() { return super.m(); } }
    var b = B(); var r = b.test();` -/
def progC3 : List Stmt :=
  [.classDef "A" [.mk "m" [] [.returnS (some (.lit (.str "A")))]] none,
   .classDef "B" [.mk "m" [] [.returnS (some (.lit (.str "B")))],
                  .mk "test" [] [.returnS (some (.call (.superE "m") []))]] (some "A"),
   .varDef "b" (.call (.var "B") []),
   .varDef "r" (.call (.getattrE (.var "b") "test") [])]

/-- C3: `super.m` resolves through the bound superclass only — its result is
the method `getMethod` finds starting at the class bound to `super`, never
consulting the current class's table — and the found method is rebound to
the current `this`: the bound closure's fresh frame maps `this` to the
current instance while sharing the found method's body.  Concretely, with
`B` extending `A` and both defining `m`, `super.m()` inside `B.test` returns
`A`'s implementation run against the current instance. -/
theorem claim_C3_super_dispatch :
    (∀ (fuel env : Nat) (st : St) (m : String) (A : LoxClass) (t : Value) (fid : Nat),
      envGet st env "super" = some (.klass A) →
      envGet st env "this" = some t →
      A.getMethod m = some fid →
      exec (fuel + 1) (.tE (.superE m)) env st
        = (.ok (.v (.fn (bindFn st fid t).1)), (bindFn st fid t).2)) ∧
    (∀ (st : St) (fid : Nat) (t : Value) (f : LoxFunction),
      st.fns[fid]? = some f →
      (bindFn st fid t).2.fns[(bindFn st fid t).1]?
        = some ⟨f.name, f.params, f.body, st.envs.length⟩ ∧
      (bindFn st fid t).2.envs[st.envs.length]? = some ⟨some f.ctx, [("this", t)]⟩) ∧
    envGet (runProg 300 progC3).2 0 "r" = some (.str "A") := by
  refine ⟨?_, ?_, rfl⟩
  · intro fuel env st m A t fid hsuper hthis hm
    simp [exec, hsuper, hthis, hm]
  · intro st fid t f hf
    have hgetD : st.fns.getD fid ⟨"", [], [], 0⟩ = f := by
      simp [List.getD_eq_getElem?_getD, hf]
    constructor
    · simp [bindFn, envPush, allocFn, hgetD, hf, List.getElem?_concat_length]
    · simp [bindFn, envPush, allocFn, hgetD, hf, List.getElem?_concat_length]

/-- C3 witness: `super` bound to a class `A` whose method `m` is closure 0,
`this` bound to instance 0; `super.m` yields the binding of closure 0. -/
theorem claim_C3_super_dispatch_witness :
    exec 1 (.tE (.superE "m"))
      1 ⟨[⟨none, [("this", .inst 0)]⟩, ⟨some 0, [("super", .klass (.base "A" [("m", 0)]))]⟩],
         [⟨"m", [], [], 0⟩], [⟨initFields (.base "A" [("m", 0)])⟩]⟩
      = (.ok (.v (.fn 1)),
         ⟨[⟨none, [("this", .inst 0)]⟩, ⟨some 0, [("super", .klass (.base "A" [("m", 0)]))]⟩,
           ⟨some 0, [("this", .inst 0)]⟩],
          [⟨"m", [], [], 0⟩, ⟨"m", [], [], 2⟩], [⟨initFields (.base "A" [("m", 0)])⟩]⟩) ∧
    (⟨[⟨none, [("this", .inst 0)]⟩, ⟨some 0, [("super", .klass (.base "A" [("m", 0)]))]⟩],
      [⟨"m", [], [], 0⟩], [⟨initFields (.base "A" [("m", 0)])⟩]⟩ : St).fns[(0 : Nat)]?
      = some ⟨"m", [], [], 0⟩ := by
  constructor
  · rw [claim_C3_super_dispatch.1 0 1
      ⟨[⟨none, [("this", .inst 0)]⟩, ⟨some 0, [("super", .klass (.base "A" [("m", 0)]))]⟩],
       [⟨"m", [], [], 0⟩], [⟨initFields (.base "A" [("m", 0)])⟩]⟩
      "m" (.base "A" [("m", 0)]) (.inst 0) 0 rfl rfl rfl]
    rfl
  · rfl

/-- `var i = 0; var a = nil; var b = nil; var c = nil;
    while (i < 3) { i = i + 1; var x = i; fun f() { return x; }
      if (i == 1) a = f; else if (i == 2) b = f; else c = f; }` -/
def progC8 : List Stmt :=
  [.varDef "i" (.lit (.num (.fin ⟨0, 1⟩))),
   .varDef "a" (.lit .nil),
   .varDef "b" (.lit .nil),
   .varDef "c" (.lit .nil),
   .whileS (.binop (.var "i") (.lit (.num (.fin ⟨3, 1⟩))) .ltK)
     (.block
       [.exprStmt (.assign "i" (.binop (.var "i") (.lit (.num (.fin ⟨1, 1⟩))) .addK)),
        .varDef "x" (.var "i"),
        .funDef "f" [] [.returnS (some (.var "x"))],
        .ifS (.binop (.var "i") (.lit (.num (.fin ⟨1, 1⟩))) .eqK)
          (.exprStmt (.assign "a" (.var "f")))
          (.ifS (.binop (.var "i") (.lit (.num (.fin ⟨2, 1⟩))) .eqK)
            (.exprStmt (.assign "b" (.var "f")))
            (.exprStmt (.assign "c" (.var "f"))))])]

/-- C8: the three closures created in the three iterations of the loop are
three distinct heap closures capturing three distinct environment frames
(each iteration's block entry pushed a fresh child), and invoking them
yields the three distinct loop-local values 1, 2 and 3 — not three copies of
the final value. -/
theorem claim_C8_loop_closures :
    envGet (runProg 400 progC8).2 0 "a" = some (.fn 0) ∧
    envGet (runProg 400 progC8).2 0 "b" = some (.fn 1) ∧
    envGet (runProg 400 progC8).2 0 "c" = some (.fn 2) ∧
    ((runProg 400 progC8).2.fns.getD 0 ⟨"", [], [], 0⟩).ctx
      ≠ ((runProg 400 progC8).2.fns.getD 1 ⟨"", [], [], 0⟩).ctx ∧
    ((runProg 400 progC8).2.fns.getD 1 ⟨"", [], [], 0⟩).ctx
      ≠ ((runProg 400 progC8).2.fns.getD 2 ⟨"", [], [], 0⟩).ctx ∧
    ((runProg 400 progC8).2.fns.getD 0 ⟨"", [], [], 0⟩).ctx
      ≠ ((runProg 400 progC8).2.fns.getD 2 ⟨"", [], [], 0⟩).ctx ∧
    (exec 100 (.tCall (.fn 0) []) 0 (runProg 400 progC8).2).1
      = .ok (.v (.num (.fin ⟨1, 1⟩))) ∧
    (exec 100 (.tCall (.fn 1) []) 0 (runProg 400 progC8).2).1
      = .ok (.v (.num (.fin ⟨2, 1⟩))) ∧
    (exec 100 (.tCall (.fn 2) []) 0 (runProg 400 progC8).2).1
      = .ok (.v (.num (.fin ⟨3, 1⟩))) :=
  ⟨rfl, rfl, rfl, by decide, by decide, by decide, rfl, rfl, rfl⟩

/-- `class A { init() { -"x"; } } var r = A();` — the init body raises the
`LoxError` "Operand must be a number.". -/
def progC1 : List Stmt :=
  [.classDef "A" [.mk "init" [] [.exprStmt (.unop (.lit (.str "x")) .negK)]] none,
   .varDef "r" (.call (.var "A") [])]

/-- `class B { init(p) { -"x"; } } var r = B(1);` — same failing body, one
declared parameter, one argument passed. -/
def progC1b : List Stmt :=
  [.classDef "B" [.mk "init" ["p"] [.exprStmt (.unop (.lit (.str "x")) .negK)]] none,
   .varDef "r" (.call (.var "B") [.lit (.num (.fin ⟨1, 1⟩))])]

/-- C1 is refuted by the code: the `try` in `LoxClass.__call__` wraps the
whole `get_method`/`bind`/run sequence, so a `LoxError` raised while the
bound `init` body executes is also caught: with no call arguments it is
silently discarded and the instance returned as if construction succeeded
(`progC1`), and with arguments it is replaced by the 0-arity `TypeError`
even though the class's `init` declares exactly that arity (`progC1b`). -/
theorem claim_C1_init_error_swallowed :
    (runProg 50 progC1).1 = .ok .u ∧
    envGet (runProg 50 progC1).2 0 "r" = some (.inst 0) ∧
    (runProg 50 progC1b).1 = .err (.typeError (arityMsg 1)) :=
  ⟨rfl, rfl, rfl⟩

end LoxSpec
